import Mathlib

/-!
Verification of the resume-matcher backend against its specification.

The development shallowly embeds the Python sources:
  * `utils/pdf_reader.py`  — `validate_pdf`, `extract_text_from_pdf`
  * `utils/ai_analyzer.py` — the response-normalization step of
    `ResumeAnalyzer.analyze_resume`, `_create_structured_response`,
    `chat_with_context`
  * `utils/db.py`          — `get_user_analyses`, `get_latest_analysis`,
    `delete_analysis`
  * `main.py`              — the `/analyze-resume`, `/chat` and
    `DELETE /summaries/{id}` handlers

External collaborators (the PyPDF2 parser, the hosted language model,
`json.loads`, and the Supabase row store) are passed in as explicit oracle
parameters, so every claim is quantified over all of their possible
behaviours.  Bytes are modelled as `List Nat`, timestamps as `Nat`
(ISO-8601 strings compare chronologically), and Python exceptions as
`Except`/`Option` results.
-/

namespace ResumeMatcher

/-! ### Document text extractor (`utils/pdf_reader.py`) -/

/-- ASCII lowercasing of one byte, as Python `bytes.lower` does per byte. -/
def byteLower (b : Nat) : Nat := if 65 ≤ b ∧ b ≤ 90 then b + 32 else b

/-- The lowercased 4-byte document signature, Python `b"%pdf"`. -/
def pdfSigLower : List Nat := [37, 112, 100, 102]

/-- Outcome of handing raw bytes to the third-party `PdfReader`: either the
container cannot be opened (the constructor raises), or it yields a list of
pages, each page being the outcome of `page.extract_text()` — `none` when
that call raises, `some t` when it returns text (a Python `None` return is
folded to `""` by the source's `or ""`). -/
def PdfParser : Type := List Nat → Except Unit (List (Option String))

/-- Embeds `validate_pdf` from `utils/pdf_reader.py`: length guard, then the
case-insensitive `%PDF` header check, then parsing with at least one page;
the bare `except:` makes any parser failure return `false`. -/
def validate_pdf (parser : PdfParser) (file_content : List Nat) : Bool :=
  if file_content.length < 4 then
    false
  else if !(pdfSigLower.isPrefixOf ((file_content.take 4).map byteLower)) then
    false
  else
    match parser file_content with
    | Except.error _ => false
    | Except.ok pages => decide (0 < pages.length)

/-- The signature condition exactly as the specification words it: the bytes
begin, case-insensitively, with the 4-byte `%PDF` signature (inputs shorter
than 4 bytes do not qualify). -/
def hasPdfSignature (content : List Nat) : Bool :=
  decide (4 ≤ content.length) && pdfSigLower.isPrefixOf ((content.take 4).map byteLower)

/-- Whitespace as Python `str.strip` treats it (restricted to the ASCII
whitespace characters that can occur here). -/
def isWs (c : Char) : Bool := c == ' ' || c == '\t' || c == '\n' || c == '\r'

/-- Python `str.strip()`: drop leading and trailing whitespace. -/
def pyStrip (s : String) : String :=
  String.mk (((s.data.dropWhile isWs).reverse.dropWhile isWs).reverse)

/-- The page-collecting loop of `extract_text_from_pdf`: a raising page is
skipped (`except: continue`), and a page whose text is blank after `strip`
is also skipped (`if page_text.strip():`). -/
def collectParts : List (Option String) → List String
  | [] => []
  | none :: rest => collectParts rest
  | some t :: rest => if pyStrip t != "" then t :: collectParts rest else collectParts rest

/-- Embeds `extract_text_from_pdf` from `utils/pdf_reader.py`: a container
that cannot be opened raises `ValueError` (modelled as `Except.error`);
otherwise the collected page texts are joined by `"\n"` and stripped. -/
def extract_text_from_pdf (parser : PdfParser) (file_content : List Nat) :
    Except Unit String :=
  match parser file_content with
  | Except.error e => Except.error e
  | Except.ok pages => Except.ok (pyStrip (String.intercalate "\n" (collectParts pages)))

/-- The extraction result as the claim words it: the per-page extracted
texts in document order, with only the failing pages skipped, joined by
single newlines. -/
def extractClaimText (pages : List (Option String)) : String :=
  String.intercalate "\n" (pages.filterMap id)

/-! ### JSON values and the analysis normalizer (`utils/ai_analyzer.py`) -/

/-- Values a parsed JSON object can hold (numbers modelled as integers). -/
inductive JValue where
  | jnull : JValue
  | jbool : Bool → JValue
  | jnum : Int → JValue
  | jstr : String → JValue
  | jarr : List JValue → JValue
  | jobj : List (String × JValue) → JValue

/-- Python truthiness of a JSON value: `None`, `False`, `0`, `""`, `[]` and
the empty object are falsy, everything else truthy. -/
def JValue.truthy : JValue → Bool
  | .jnull => false
  | .jbool b => b
  | .jnum n => n != 0
  | .jstr s => s != ""
  | .jarr xs => !xs.isEmpty
  | .jobj fs => !fs.isEmpty

/-- A Python dict with string keys, as an association list. -/
abbrev JDict := List (String × JValue)

/-- Dict lookup, `d[k]` / `k in d`. -/
def dictGet (d : JDict) (k : String) : Option JValue :=
  (d.find? (fun p => p.1 == k)).map Prod.snd

/-- Dict assignment `d[k] = v`: replace the binding if the key is present,
otherwise append it (keys of a Python dict are unique). -/
def dictSet : JDict → String → JValue → JDict
  | [], k, v => [(k, v)]
  | p :: rest, k, v => if p.1 == k then (k, v) :: rest else p :: dictSet rest k v

/-- The `defaults` table of `ResumeAnalyzer.analyze_resume`
(`utils/ai_analyzer.py`, lines 61-71), used by the completion pass on the
JSON-extraction path. -/
def defaults : JDict :=
  [("summary", JValue.jstr "Professional with diverse skills and experience."),
   ("job_roles", JValue.jarr [JValue.jstr "Software Engineer",
      JValue.jstr "Project Manager", JValue.jstr "Data Analyst"]),
   ("soft_skills", JValue.jarr [JValue.jstr "Communication", JValue.jstr "Teamwork",
      JValue.jstr "Problem-solving", JValue.jstr "Leadership"]),
   ("technical_skills", JValue.jarr [JValue.jstr "Various technologies"]),
   ("sentiment", JValue.jstr "Positive"),
   ("tone", JValue.jstr "Professional"),
   ("suggested_jobs", JValue.jarr [JValue.jstr "Software Developer",
      JValue.jstr "Technical Lead"]),
   ("improvement_areas", JValue.jarr [JValue.jstr "Add more specific achievements",
      JValue.jstr "Include quantifiable results"]),
   ("experience_level", JValue.jstr "Mid")]

/-- One iteration of the completion pass:
`if key not in analysis or not analysis[key]: analysis[key] = default`. -/
def completeStep (acc : JDict) (kv : String × JValue) : JDict :=
  match dictGet acc kv.1 with
  | some v => if v.truthy then acc else dictSet acc kv.1 kv.2
  | none => dictSet acc kv.1 kv.2

/-- The completion pass over the whole `defaults` table. -/
def completeWithDefaults (analysis : JDict) : JDict :=
  defaults.foldl completeStep analysis

/-- Case-insensitive substring test, Python `needle in text.lower()`. -/
def isSubStr (needle : List Char) : List Char → Bool
  | [] => needle.isEmpty
  | c :: rest => needle.isPrefixOf (c :: rest) || isSubStr needle rest

/-- The keyword scan of `_create_structured_response`: append each skill
whose keyword occurs in the lowercased text, in the source's order. -/
def heuristicSkills (text : List Char) : List JValue :=
  let lower := text.map Char.toLower
  (if isSubStr "python".toList lower then [JValue.jstr "Python"] else []) ++
  (if isSubStr "javascript".toList lower then [JValue.jstr "JavaScript"] else []) ++
  (if isSubStr "leadership".toList lower then [JValue.jstr "Leadership"] else []) ++
  (if isSubStr "communication".toList lower then [JValue.jstr "Communication"] else [])

/-- The summary of `_create_structured_response`: the text up to the first
period with the period re-appended (`text.split('.')[0] + "."`), or the
fixed sentence when the text has no period. -/
def heuristicSummary (text : List Char) : JValue :=
  if text.contains '.' then
    JValue.jstr (String.mk (text.takeWhile (fun c => c ≠ '.') ++ ['.']))
  else
    JValue.jstr "Experienced professional with diverse background."

/-- Embeds `ResumeAnalyzer._create_structured_response`
(`utils/ai_analyzer.py`, lines 88-114): keyword scan for skills, summary as
the text up to the first period (or a fixed sentence when no period
exists), and hardcoded values for every other field. -/
def create_structured_response (text : List Char) : JDict :=
  [("summary", heuristicSummary text),
   ("job_roles", JValue.jarr [JValue.jstr "Software Engineer",
      JValue.jstr "Project Manager", JValue.jstr "Team Lead"]),
   ("soft_skills", JValue.jarr [JValue.jstr "Communication", JValue.jstr "Leadership",
      JValue.jstr "Problem-solving", JValue.jstr "Teamwork"]),
   ("technical_skills", if (heuristicSkills text).isEmpty then
      JValue.jarr [JValue.jstr "Various technologies"] else JValue.jarr (heuristicSkills text)),
   ("sentiment", JValue.jstr "Positive"),
   ("tone", JValue.jstr "Professional"),
   ("suggested_jobs", JValue.jarr [JValue.jstr "Software Developer",
      JValue.jstr "Technical Lead", JValue.jstr "Product Manager"]),
   ("improvement_areas", JValue.jarr [JValue.jstr "Add more specific achievements",
      JValue.jstr "Include quantifiable results"]),
   ("experience_level", JValue.jstr "Mid")]

/-- The span matched by `re.search` with the pattern of a brace followed by
anything followed by a brace (greedy): from the first opening brace to the
last closing brace, provided the latter comes after the former. -/
def jsonCandidate (content : List Char) : Option (List Char) :=
  match content.findIdx? (fun c => c == Char.ofNat 123) with
  | none => none
  | some i =>
    match content.reverse.findIdx? (fun c => c == Char.ofNat 125) with
    | none => none
    | some rj =>
      let j := content.length - 1 - rj
      if i < j then some ((content.drop i).take (j - i + 1)) else none

/-- Outcome of `json.loads` on the matched span: `none` models a
`JSONDecodeError`, `some d` the parsed object (a successfully parsed text
that starts with an opening brace is always an object). -/
def JsonParser : Type := List Char → Option JDict

/-- The normalization step of `ResumeAnalyzer.analyze_resume`
(`utils/ai_analyzer.py`, lines 53-83): locate a JSON object literal in the
model output; if found and parseable, run the completion pass over it;
otherwise fall back to the heuristic response. -/
def analyze_normalize (jparse : JsonParser) (content : List Char) : JDict :=
  match jsonCandidate content with
  | some cand =>
    match jparse cand with
    | some analysis => completeWithDefaults analysis
    | none => create_structured_response content
  | none => create_structured_response content

/-- The nine required fields of an analysis record. -/
def requiredKeys : List String :=
  ["summary", "job_roles", "soft_skills", "technical_skills", "sentiment",
   "tone", "suggested_jobs", "improvement_areas", "experience_level"]

/-- The dict holds a truthy value at key `k`. -/
def truthyAt (d : JDict) (k : String) : Bool :=
  match dictGet d k with
  | some v => v.truthy
  | none => false

/-! ### Record store (`utils/db.py`) and the chat pipeline (`main.py`) -/

/-- A stored `resume_analysis` row, with `created_at` as a numeric
timestamp (ISO-8601 strings compare chronologically). -/
structure AnalysisRecord where
  id : String
  user_id : String
  resume_title : String
  summary_text : String
  job_roles : List String
  soft_skills : List String
  technical_skills : List String
  sentiment : String
  tone : String
  suggested_jobs : List String
  improvement_areas : List String
  experience_level : String
  created_at : Nat
deriving DecidableEq

/-- Descending order on creation time, as `order("created_at", desc=True)`. -/
def laterFirst (a b : AnalysisRecord) : Prop := b.created_at ≤ a.created_at

instance : DecidableRel laterFirst := fun a b => Nat.decLe b.created_at a.created_at

instance : IsTotal AnalysisRecord laterFirst :=
  ⟨fun a b => (Nat.le_total a.created_at b.created_at).symm⟩

instance : IsTrans AnalysisRecord laterFirst :=
  ⟨fun _ _ _ hab hbc => Nat.le_trans hbc hab⟩

/-- Embeds `SupabaseDB.get_user_analyses`: the rows of the caller's subject,
ordered by creation timestamp descending (the ordering is performed by the
external store; it is modelled by a sort on the filtered rows). -/
def get_user_analyses (store : List AnalysisRecord) (uid : String) :
    List AnalysisRecord :=
  List.insertionSort laterFirst (store.filter (fun r => r.user_id == uid))

/-- Embeds `SupabaseDB.get_latest_analysis`: the head of the
descending-ordered rows, `None` when the subject has no rows. -/
def get_latest_analysis (store : List AnalysisRecord) (uid : String) :
    Option AnalysisRecord :=
  (get_user_analyses store uid).head?

/-- The context string synthesized in the `/chat` handler
(`main.py`, lines 151-156). -/
def build_resume_summary (r : AnalysisRecord) : String :=
  "Summary: " ++ r.summary_text ++ "\n" ++
  "Job Roles: " ++ String.intercalate ", " r.job_roles ++ "\n" ++
  "Skills: " ++ String.intercalate ", " (r.soft_skills ++ r.technical_skills) ++ "\n" ++
  "Experience Level: " ++ r.experience_level

/-- The fixed reply `ResumeAnalyzer.chat_with_context` returns when the
model call raises. -/
def apologyReply : String :=
  "I apologize, but I'm having trouble processing your request right now. Please try again later."

/-- Embeds `ResumeAnalyzer.chat_with_context`: the model client is an
oracle from (context, message) to either a reply or a raised exception; a
raise is swallowed and replaced by the fixed apology string. -/
def chat_with_context (llm : String → String → Except Unit String)
    (resume_summary user_message : String) : String :=
  match llm resume_summary user_message with
  | Except.ok reply => reply
  | Except.error _ => apologyReply

/-- Possible responses of the `/chat` handler. -/
inductive ChatResult where
  | badRequest : String → ChatResult
  | notFound : String → ChatResult
  | okReply : String → ChatResult
  | serverError : String → ChatResult
deriving DecidableEq

/-- HTTP status code of a `/chat` response. -/
def ChatResult.status : ChatResult → Nat
  | .badRequest _ => 400
  | .notFound _ => 404
  | .okReply _ => 200
  | .serverError _ => 500

/-- Which collaborators the handler actually invoked. -/
structure ChatTrace where
  storeCalled : Bool
  modelCalled : Bool
deriving DecidableEq

/-- Embeds the `/chat` handler (`main.py`, lines 134-165).  `message` is the
value of `body.get("message")` (`none` when absent); `dbFetch` is the
outcome of the store query (an `Except.error` models the Supabase client
raising, which the handler's final `except Exception` turns into a 500). -/
def chat_with_ai (dbFetch : Except Unit (List AnalysisRecord))
    (llm : String → String → Except Unit String)
    (uid : String) (message : Option String) : ChatResult × ChatTrace :=
  match message with
  | none => (ChatResult.badRequest "Message is required", ⟨false, false⟩)
  | some m =>
    if m == "" then
      (ChatResult.badRequest "Message is required", ⟨false, false⟩)
    else
      match dbFetch with
      | Except.error _ => (ChatResult.serverError "Error in chat", ⟨true, false⟩)
      | Except.ok store =>
        match get_latest_analysis store uid with
        | none => (ChatResult.notFound "No resume analysis found", ⟨true, false⟩)
        | some latest =>
          (ChatResult.okReply (chat_with_context llm (build_resume_summary latest) m),
           ⟨true, true⟩)

/-! ### Deletion (`utils/db.py` and the `DELETE /summaries/{id}` handler) -/

/-- The rows the store-side delete matches: same analysis id and same
owning subject. -/
def db_delete_matches (store : List AnalysisRecord) (analysis_id uid : String) :
    List AnalysisRecord :=
  store.filter (fun r => r.id == analysis_id && r.user_id == uid)

/-- Embeds `SupabaseDB.delete_analysis`: `len(response.data) > 0`, i.e.
whether any row was deleted. -/
def delete_analysis (store : List AnalysisRecord) (analysis_id uid : String) : Bool :=
  decide (0 < (db_delete_matches store analysis_id uid).length)

/-- An HTTPException raised inside a handler body. -/
structure HttpErr where
  status : Nat
  detail : String
deriving DecidableEq

/-- The `try` body of the `delete_summary` handler: raise a 404
HTTPException when nothing was deleted, otherwise return the success
message. -/
def delete_summary_try (success : Bool) : Except HttpErr String :=
  if !success then Except.error ⟨404, "Analysis not found"⟩
  else Except.ok "Analysis deleted successfully"

/-- A response of a handler that only reports a message or an error. -/
inductive HttpOutcome where
  | success : String → HttpOutcome
  | failure : Nat → String → HttpOutcome
deriving DecidableEq

/-- Embeds the `DELETE /summaries/{analysis_id}` handler (`main.py`, lines
179-189).  Unlike the neighbouring handlers it has no
`except HTTPException: raise` clause, so the `except Exception` also
catches the HTTPException raised inside the `try` body and replaces it
with a 500. -/
def delete_summary (store : List AnalysisRecord) (analysis_id uid : String) :
    HttpOutcome :=
  match delete_summary_try (delete_analysis store analysis_id uid) with
  | Except.ok m => HttpOutcome.success m
  | Except.error _ => HttpOutcome.failure 500 "Error deleting summary"

/-! ### The resume-analysis pipeline (`main.py`, `/analyze-resume`) -/

/-- The external collaborators of the `/analyze-resume` handler: the PDF
parsing library, the model client (extracted text to model output, or a
raise), `json.loads`, and the store insert. -/
structure Oracles where
  parser : PdfParser
  llm : String → Except Unit String
  jparse : JsonParser
  dbSave : Except Unit Unit

/-- The upload size limit, `10 * 1024 * 1024` bytes. -/
def MAX_UPLOAD : Nat := 10 * 1024 * 1024

/-- A response of the `/analyze-resume` handler: the normalized analysis on
success, a status code and detail string on failure. -/
inductive AnalyzeResult where
  | success : JDict → AnalyzeResult
  | failure : Nat → String → AnalyzeResult

/-- Embeds the `/analyze-resume` handler (`main.py`, lines 92-131): size
check, format validation, text extraction, model analysis with
normalization, then persistence; every caught internal failure maps to a
500 with a generic message. -/
def analyze_resume_endpoint (o : Oracles) (file_content : List Nat) : AnalyzeResult :=
  if MAX_UPLOAD < file_content.length then
    AnalyzeResult.failure 400 "File size too large (max 10MB)"
  else if !(validate_pdf o.parser file_content) then
    AnalyzeResult.failure 400 "Invalid or unsupported file. Please upload a PDF."
  else
    match extract_text_from_pdf o.parser file_content with
    | Except.error _ => AnalyzeResult.failure 500 "Error processing resume"
    | Except.ok resume_text =>
      if resume_text == "" || pyStrip resume_text == "" then
        AnalyzeResult.failure 400 "No text found in PDF"
      else
        match o.llm resume_text with
        | Except.error _ => AnalyzeResult.failure 500 "Error processing resume"
        | Except.ok content =>
          match o.dbSave with
          | Except.error _ => AnalyzeResult.failure 500 "Error processing resume"
          | Except.ok _ => AnalyzeResult.success (analyze_normalize o.jparse content.toList)

/-- A set of oracles in which every collaborator fails; used to instantiate
universally quantified statements at a concrete point. -/
def stubOracles : Oracles :=
  ⟨fun _ => Except.error (), fun _ => Except.error (), fun _ => none, Except.error ()⟩

/-- A stored record of subject `"u"` with the earlier creation timestamp. -/
def recEarly : AnalysisRecord :=
  ⟨"id1", "u", "old.pdf", "old summary", ["Engineer"], ["Teamwork"], ["Python"],
   "Positive", "Professional", ["Developer"], ["More detail"], "Mid", 1⟩

/-- A stored record of subject `"u"` with the later creation timestamp. -/
def recLate : AnalysisRecord :=
  ⟨"id2", "u", "new.pdf", "new summary", ["Manager"], ["Leadership"], ["Go"],
   "Positive", "Professional", ["Lead"], ["Quantify"], "Senior", 5⟩

/-- A model client that always answers. -/
def stubChatLlm : String → String → Except Unit String := fun _ _ => Except.ok "advice"

/-- The bytes of `b"not a pdf"`. -/
def notPdfBytes : List Nat := [110, 111, 116, 32, 97, 32, 112, 100, 102]

/-! ## Supporting lemmas -/

theorem collectParts_eq_filter (pages : List (Option String)) :
    collectParts pages = (pages.filterMap id).filter (fun s => pyStrip s != "") := by
  induction pages with
  | nil => rfl
  | cons p rest ih =>
    cases p with
    | none => simpa [collectParts] using ih
    | some t =>
      by_cases h : pyStrip t != ""
      · simp [collectParts, h, ih, List.filter_cons]
      · simp [collectParts, h, ih, List.filter_cons]

/-! ## Claims -/

/-- C4 (code bug): when no stored record matches both the analysis id and
the caller's subject id, the store-side delete reports `False`, the
handler's `try` body raises a 404 HTTPException — but the handler's blanket
`except Exception` (it lacks the `except HTTPException: raise` clause its
sibling handlers have) converts it into a 500, so the client receives 500,
not the 404 the claim states. -/
theorem delete_not_found_returns_500 :
    delete_analysis [] "a1" "u1" = false ∧
    delete_summary_try false = Except.error ⟨404, "Analysis not found"⟩ ∧
    delete_summary [] "a1" "u1" = HttpOutcome.failure 500 "Error deleting summary" :=
  ⟨rfl, rfl, rfl⟩

/-- C8: a chat request with an absent or empty message is answered with the
400 bad-request result, and neither the record store nor the model client
is invoked. -/
theorem empty_message_rejected_without_calls
    (dbFetch : Except Unit (List AnalysisRecord))
    (llm : String → String → Except Unit String) (uid : String) :
    chat_with_ai dbFetch llm uid none
        = (ChatResult.badRequest "Message is required", ⟨false, false⟩) ∧
    chat_with_ai dbFetch llm uid (some "")
        = (ChatResult.badRequest "Message is required", ⟨false, false⟩) ∧
    (ChatResult.badRequest "Message is required").status = 400 :=
  ⟨rfl, rfl, rfl⟩

/-- C10: `validate_pdf` is total — a function into `Bool` in this
embedding — and when the document parser raises, the surrounding bare
`except:` yields `false`. -/
theorem validate_total_on_parser_failure (parser : PdfParser) (content : List Nat)
    (h : parser content = Except.error ()) :
    validate_pdf parser content = false := by
  unfold validate_pdf
  split
  · rfl
  · split
    · rfl
    · rw [h]

/-- Witness for C10: bytes with a valid header, parser that raises. -/
theorem validate_total_on_parser_failure_check :
    validate_pdf (fun _ => Except.error ()) [37, 80, 68, 70] = false :=
  validate_total_on_parser_failure _ _ rfl

/-- C9 counterexample: a document with three successfully extracted pages
`" a "`, `"  "` and `"b"`.  The claim's join of all per-page texts is
`" a \n  \nb"`, but the code skips the blank middle page and strips the
joined result, producing `"a \nb"`. -/
theorem extract_join_counterexample :
    extractClaimText [some " a ", some "  ", some "b"] = " a \n  \nb" ∧
    extract_text_from_pdf (fun _ => Except.ok [some " a ", some "  ", some "b"]) []
        = Except.ok "a \nb" ∧
    (" a \n  \nb" : String) ≠ "a \nb" :=
  ⟨rfl, rfl, by decide⟩

/-- C9 amended: extraction fails exactly when the container cannot be
opened; otherwise it returns the texts of the pages that extracted
successfully AND are not blank after stripping, in document order, joined
by single newlines, with the joined result stripped of surrounding
whitespace. -/
theorem extract_skips_blank_pages (parser : PdfParser) (content : List Nat) :
    (∀ e, parser content = Except.error e →
        extract_text_from_pdf parser content = Except.error e) ∧
    (∀ pages, parser content = Except.ok pages →
        extract_text_from_pdf parser content
          = Except.ok (pyStrip (String.intercalate "\n"
              ((pages.filterMap id).filter (fun s => pyStrip s != ""))))) := by
  constructor
  · intro e h
    unfold extract_text_from_pdf
    rw [h]
  · intro pages h
    unfold extract_text_from_pdf
    rw [h]
    show Except.ok (pyStrip (String.intercalate "\n" (collectParts pages))) = _
    rw [collectParts_eq_filter]

/-- Witness for C9's amended statement: one good page, one raising page,
one blank page. -/
theorem extract_skips_blank_pages_check :
    extract_text_from_pdf (fun _ => Except.ok [some "x", none, some " "]) []
        = Except.ok "x" := by
  have h := (extract_skips_blank_pages (fun _ => Except.ok [some "x", none, some " "]) []).2
      [some "x", none, some " "] rfl
  rw [h]
  rfl

/-- C6: bytes that do not begin, case-insensitively, with the 4-byte
`%PDF` signature (including inputs shorter than 4 bytes) never validate;
a validating input has the signature and parses into a document with at
least one page; and, within the size limit, the pipeline rejects
non-validating payloads with the 400 invalid-format error. -/
theorem validate_requires_signature_and_pages (o : Oracles) (content : List Nat) :
    (hasPdfSignature content = false → validate_pdf o.parser content = false) ∧
    (validate_pdf o.parser content = true →
      hasPdfSignature content = true ∧
      ∃ pages, o.parser content = Except.ok pages ∧ 0 < pages.length) ∧
    (content.length ≤ MAX_UPLOAD → validate_pdf o.parser content = false →
      analyze_resume_endpoint o content
        = AnalyzeResult.failure 400 "Invalid or unsupported file. Please upload a PDF.") := by
  refine ⟨?_, ?_, ?_⟩
  · intro h
    unfold validate_pdf
    unfold hasPdfSignature at h
    rcases Bool.and_eq_false_iff.mp h with h1 | h2
    · have h1' := of_decide_eq_false h1
      rw [if_pos (by omega)]
    · split
      · rfl
      · rw [if_pos]
        rw [h2]
        rfl
  · intro h
    unfold validate_pdf at h
    split at h
    · exact absurd h (by simp)
    · split at h
      · exact absurd h (by simp)
      · rename_i hlen hsig
        constructor
        · unfold hasPdfSignature
          rw [Bool.not_eq_true'] at hsig
          rw [Bool.not_eq_false] at hsig
          rw [hsig]
          simp only [Bool.and_true]
          exact decide_eq_true (by omega)
        · cases hp : o.parser content with
          | error e => rw [hp] at h; exact absurd h (by simp)
          | ok pages =>
            rw [hp] at h
            exact ⟨pages, rfl, of_decide_eq_true h⟩
  · intro hsize hval
    unfold analyze_resume_endpoint
    rw [if_neg (by omega), hval]
    rfl

/-- Witness for C6: the bytes of `b"not a pdf"` with all-failing oracles
are rejected by validation and by the pipeline with the 400 error. -/
theorem validate_requires_signature_and_pages_check :
    validate_pdf stubOracles.parser notPdfBytes = false ∧
    analyze_resume_endpoint stubOracles notPdfBytes
      = AnalyzeResult.failure 400 "Invalid or unsupported file. Please upload a PDF." := by
  have h1 := (validate_requires_signature_and_pages stubOracles notPdfBytes).1 (by decide)
  exact ⟨h1, (validate_requires_signature_and_pages stubOracles notPdfBytes).2.2 (by decide) h1⟩

/-- C7: a payload strictly larger than 10 MiB is rejected with the 400
size error no matter what any collaborator does — so before validation and
before extraction — and a payload within the limit is never rejected with
that error. -/
theorem size_limit_checked_first (o : Oracles) (content : List Nat) :
    (MAX_UPLOAD < content.length →
      analyze_resume_endpoint o content
        = AnalyzeResult.failure 400 "File size too large (max 10MB)") ∧
    (content.length ≤ MAX_UPLOAD →
      analyze_resume_endpoint o content
        ≠ AnalyzeResult.failure 400 "File size too large (max 10MB)") := by
  constructor
  · intro h
    unfold analyze_resume_endpoint
    rw [if_pos h]
  · intro h
    unfold analyze_resume_endpoint
    rw [if_neg (by omega)]
    split
    · simp
    · split
      · simp
      · split
        · simp
        · split
          · simp
          · split
            · simp
            · simp

/-- Witness for C7: a payload one byte over the limit is rejected with the
size error, and the 9-byte payload is not. -/
theorem size_limit_checked_first_check :
    analyze_resume_endpoint stubOracles (List.replicate (MAX_UPLOAD + 1) 0)
      = AnalyzeResult.failure 400 "File size too large (max 10MB)" ∧
    analyze_resume_endpoint stubOracles notPdfBytes
      ≠ AnalyzeResult.failure 400 "File size too large (max 10MB)" := by
  constructor
  · exact (size_limit_checked_first stubOracles _).1 (by simp)
  · exact (size_limit_checked_first stubOracles notPdfBytes).2 (by decide)

theorem latest_is_max (store : List AnalysisRecord) (uid : String)
    (h : store.filter (fun r => r.user_id == uid) ≠ []) :
    ∃ r, get_latest_analysis store uid = some r ∧
      r ∈ store.filter (fun q => q.user_id == uid) ∧
      ∀ q ∈ store.filter (fun q => q.user_id == uid), q.created_at ≤ r.created_at := by
  have hsorted := List.sorted_insertionSort laterFirst
      (store.filter (fun r => r.user_id == uid))
  have hperm := List.perm_insertionSort laterFirst
      (store.filter (fun r => r.user_id == uid))
  cases hs : List.insertionSort laterFirst (store.filter (fun r => r.user_id == uid)) with
  | nil =>
    rw [hs] at hperm
    exact absurd hperm.symm.eq_nil h
  | cons r t =>
    refine ⟨r, ?_, ?_, ?_⟩
    · unfold get_latest_analysis get_user_analyses
      rw [hs]
      rfl
    · rw [hs] at hperm
      exact hperm.mem_iff.mp (List.mem_cons_self r t)
    · intro q hq
      have hqs : q ∈ r :: t := by
        rw [← hs]
        exact (List.mem_insertionSort laterFirst).mpr hq
      rcases List.mem_cons.mp hqs with heq | hqt
      · rw [heq]
      · rw [hs] at hsorted
        exact (List.sorted_cons.mp hsorted).1 q hqt

theorem chat_nonempty_case (store : List AnalysisRecord)
    (llm : String → String → Except Unit String) (uid m : String) (hm : m ≠ "")
    (h : store.filter (fun r => r.user_id == uid) ≠ []) :
    ∃ r, r ∈ store.filter (fun q => q.user_id == uid) ∧
      (∀ q ∈ store.filter (fun q => q.user_id == uid), q.created_at ≤ r.created_at) ∧
      chat_with_ai (Except.ok store) llm uid (some m)
        = (ChatResult.okReply (chat_with_context llm (build_resume_summary r) m),
           ⟨true, true⟩) := by
  obtain ⟨r, hlatest, hmem, hmax⟩ := latest_is_max store uid h
  refine ⟨r, hmem, hmax, ?_⟩
  have hm' : (m == "") = false := by simp [hm]
  simp only [chat_with_ai, hm', Bool.false_eq_true, if_false, hlatest]

/-- C3: a subject with zero stored records gets the 404 no-analysis-found
result from `chat`, and a subject with at least one record gets a reply
whose context string is built from a stored record of theirs carrying the
maximum creation timestamp. -/
theorem chat_uses_latest_analysis (store : List AnalysisRecord)
    (llm : String → String → Except Unit String) (uid m : String) (hm : m ≠ "") :
    (store.filter (fun r => r.user_id == uid) = [] →
      chat_with_ai (Except.ok store) llm uid (some m)
        = (ChatResult.notFound "No resume analysis found", ⟨true, false⟩) ∧
      (ChatResult.notFound "No resume analysis found").status = 404) ∧
    (store.filter (fun r => r.user_id == uid) ≠ [] →
      ∃ r, r ∈ store.filter (fun q => q.user_id == uid) ∧
        (∀ q ∈ store.filter (fun q => q.user_id == uid), q.created_at ≤ r.created_at) ∧
        chat_with_ai (Except.ok store) llm uid (some m)
          = (ChatResult.okReply (chat_with_context llm (build_resume_summary r) m),
             ⟨true, true⟩)) := by
  constructor
  · intro h
    refine ⟨?_, rfl⟩
    have hm' : (m == "") = false := by simp [hm]
    simp only [chat_with_ai, hm', Bool.false_eq_true, if_false,
      get_latest_analysis, get_user_analyses, h, List.insertionSort, List.head?]
  · exact chat_nonempty_case store llm uid m hm

/-- Witness for C3: of the two stored records of subject `"u"`, the chat
context is built from the one created at timestamp 5, not timestamp 1. -/
theorem chat_uses_latest_analysis_check :
    ∃ r, r ∈ List.filter (fun q => q.user_id == "u") [recEarly, recLate] ∧
      (∀ q ∈ List.filter (fun q => q.user_id == "u") [recEarly, recLate],
        q.created_at ≤ r.created_at) ∧
      chat_with_ai (Except.ok [recEarly, recLate]) stubChatLlm "u" (some "hi")
        = (ChatResult.okReply (chat_with_context stubChatLlm (build_resume_summary r) "hi"),
           ⟨true, true⟩) :=
  (chat_uses_latest_analysis [recEarly, recLate] stubChatLlm "u" "hi" (by decide)).2
    (by decide)

/-- C5 counterexample: subject `"u"` has a stored record and the model
client raises on every call, yet the chat request succeeds with HTTP 200
and the fixed apology string as the reply — it is not surfaced as a 500. -/
theorem chat_model_failure_counterexample :
    (chat_with_ai (Except.ok [recEarly]) (fun _ _ => Except.error ()) "u" (some "hi")).1
      = ChatResult.okReply apologyReply ∧
    ((chat_with_ai (Except.ok [recEarly]) (fun _ _ => Except.error ()) "u" (some "hi")).1).status
      = 200 ∧
    ((chat_with_ai (Except.ok [recEarly]) (fun _ _ => Except.error ()) "u" (some "hi")).1).status
      ≠ 500 :=
  ⟨rfl, rfl, by decide⟩

/-- C5 amended: when the model client raises, `chat_with_context` swallows
the failure and returns the fixed apology string, so the chat request
completes successfully (HTTP 200) with that string as the reply; no 500 is
produced. -/
theorem chat_model_failure_returns_apology (store : List AnalysisRecord)
    (llm : String → String → Except Unit String) (uid m : String) (hm : m ≠ "")
    (hfail : ∀ ctx msg, llm ctx msg = Except.error ())
    (hrec : store.filter (fun r => r.user_id == uid) ≠ []) :
    chat_with_ai (Except.ok store) llm uid (some m)
      = (ChatResult.okReply apologyReply, ⟨true, true⟩) ∧
    (ChatResult.okReply apologyReply).status = 200 := by
  obtain ⟨r, _, _, hrun⟩ := chat_nonempty_case store llm uid m hm hrec
  refine ⟨?_, rfl⟩
  rw [hrun]
  unfold chat_with_context
  rw [hfail]

/-- Witness for C5's amended statement at a concrete store and message. -/
theorem chat_model_failure_returns_apology_check :
    chat_with_ai (Except.ok [recEarly]) (fun _ _ => Except.error ()) "u" (some "hi")
      = (ChatResult.okReply apologyReply, ⟨true, true⟩) :=
  (chat_model_failure_returns_apology [recEarly] (fun _ _ => Except.error ()) "u" "hi"
    (by decide) (fun _ _ => rfl) (by decide)).1

theorem dictGet_dictSet_self (d : JDict) (k : String) (v : JValue) :
    dictGet (dictSet d k v) k = some v := by
  induction d with
  | nil => simp [dictSet, dictGet, List.find?]
  | cons p rest ih =>
    by_cases h : p.1 == k
    · simp [dictSet, h, dictGet, List.find?]
    · simp only [dictSet, h, Bool.false_eq_true, if_false]
      simpa [dictGet, List.find?, h] using ih

theorem dictGet_dictSet_ne (d : JDict) (k k' : String) (v : JValue) (h : k' ≠ k) :
    dictGet (dictSet d k v) k' = dictGet d k' := by
  have hkk : (k == k') = false := beq_eq_false_iff_ne.mpr (Ne.symm h)
  induction d with
  | nil => simp [dictSet, dictGet, List.find?, hkk]
  | cons p rest ih =>
    by_cases hp : p.1 == k
    · have hp1 : p.1 = k := by simpa using hp
      simp [dictSet, hp, dictGet, List.find?, hkk, hp1]
    · simp only [dictSet, hp, Bool.false_eq_true, if_false]
      by_cases hq : p.1 == k'
      · simp [dictGet, List.find?, hq]
      · simpa [dictGet, List.find?, hq] using ih

theorem truthyAt_completeStep_self (d : JDict) (k : String) (v : JValue)
    (hv : v.truthy = true) : truthyAt (completeStep d (k, v)) k = true := by
  unfold completeStep
  cases hg : dictGet d k with
  | none => simp [truthyAt, dictGet_dictSet_self, hv]
  | some w =>
    by_cases hw : w.truthy
    · simp [hw, truthyAt, hg]
    · simp [hw, truthyAt, dictGet_dictSet_self, hv]

theorem truthyAt_completeStep_mono (d : JDict) (k : String) (p : String × JValue)
    (h : truthyAt d k = true) : truthyAt (completeStep d p) k = true := by
  obtain ⟨k', v'⟩ := p
  unfold completeStep
  cases hg : dictGet d k' with
  | some w =>
    by_cases hw : w.truthy
    · simpa [hw] using h
    · have hkk : k' ≠ k := by
        intro he
        rw [he] at hg
        rw [truthyAt, hg] at h
        exact hw h
      simp only [hw, Bool.false_eq_true, if_false]
      rw [truthyAt, dictGet_dictSet_ne d k' k v' hkk.symm]
      exact h
  | none =>
    have hkk : k' ≠ k := by
      intro he
      rw [he] at hg
      rw [truthyAt, hg] at h
      exact Bool.false_ne_true h
    simp only []
    rw [truthyAt, dictGet_dictSet_ne d k' k v' hkk.symm]
    exact h

theorem truthyAt_foldl_mono (ds : List (String × JValue)) (d : JDict) (k : String)
    (h : truthyAt d k = true) :
    truthyAt (ds.foldl completeStep d) k = true := by
  induction ds generalizing d with
  | nil => exact h
  | cons p rest ih => exact ih _ (truthyAt_completeStep_mono d k p h)

theorem truthyAt_foldl_of_mem (ds : List (String × JValue)) :
    ∀ (d : JDict) (k : String) (v : JValue), (k, v) ∈ ds → v.truthy = true →
      truthyAt (ds.foldl completeStep d) k = true := by
  induction ds with
  | nil => intro d k v hmem _; cases hmem
  | cons p rest ih =>
    intro d k v hmem hv
    rcases List.mem_cons.mp hmem with heq | htail
    · rw [List.foldl_cons, ← heq]
      exact truthyAt_foldl_mono rest _ k (truthyAt_completeStep_self d k v hv)
    · exact ih _ _ _ htail hv

theorem completeWithDefaults_truthy (d : JDict) :
    requiredKeys.all (fun k => truthyAt (completeWithDefaults d) k) = true := by
  have h : ∀ k v, (k, v) ∈ defaults → v.truthy = true →
      truthyAt (completeWithDefaults d) k = true :=
    fun k v hm hv => truthyAt_foldl_of_mem defaults d k v hm hv
  simp only [requiredKeys, List.all_cons, List.all_nil, Bool.and_true, Bool.and_eq_true]
  exact ⟨h "summary" (JValue.jstr "Professional with diverse skills and experience.")
      (by simp [defaults]) rfl,
    h "job_roles" (JValue.jarr [JValue.jstr "Software Engineer",
      JValue.jstr "Project Manager", JValue.jstr "Data Analyst"]) (by simp [defaults]) rfl,
    h "soft_skills" (JValue.jarr [JValue.jstr "Communication", JValue.jstr "Teamwork",
      JValue.jstr "Problem-solving", JValue.jstr "Leadership"]) (by simp [defaults]) rfl,
    h "technical_skills" (JValue.jarr [JValue.jstr "Various technologies"])
      (by simp [defaults]) rfl,
    h "sentiment" (JValue.jstr "Positive") (by simp [defaults]) rfl,
    h "tone" (JValue.jstr "Professional") (by simp [defaults]) rfl,
    h "suggested_jobs" (JValue.jarr [JValue.jstr "Software Developer",
      JValue.jstr "Technical Lead"]) (by simp [defaults]) rfl,
    h "improvement_areas" (JValue.jarr [JValue.jstr "Add more specific achievements",
      JValue.jstr "Include quantifiable results"]) (by simp [defaults]) rfl,
    h "experience_level" (JValue.jstr "Mid") (by simp [defaults]) rfl⟩

theorem create_structured_summary_truthy (t : List Char) :
    truthyAt (create_structured_response t) "summary" = true := by
  have hget : dictGet (create_structured_response t) "summary"
      = some (heuristicSummary t) := rfl
  rw [truthyAt, hget]
  unfold heuristicSummary
  by_cases h : t.contains '.'
  · simp only [h, if_true]
    simp [JValue.truthy, String.ext_iff]
  · simp only [h, Bool.false_eq_true, if_false]
    rfl

theorem create_structured_technical_truthy (t : List Char) :
    truthyAt (create_structured_response t) "technical_skills" = true := by
  have hget : dictGet (create_structured_response t) "technical_skills"
      = some (if (heuristicSkills t).isEmpty then
          JValue.jarr [JValue.jstr "Various technologies"]
        else JValue.jarr (heuristicSkills t)) := rfl
  rw [truthyAt, hget]
  by_cases h : (heuristicSkills t).isEmpty
  · simp [h, JValue.truthy]
  · simp [h, JValue.truthy]

theorem analyze_normalize_path (jparse : JsonParser) (content : List Char) :
    (∃ a, analyze_normalize jparse content = completeWithDefaults a) ∨
    analyze_normalize jparse content = create_structured_response content := by
  unfold analyze_normalize
  cases hc : jsonCandidate content with
  | none => exact Or.inr rfl
  | some cand =>
    cases hp : jparse cand with
    | none =>
      right
      show (match jparse cand with
        | some analysis => completeWithDefaults analysis
        | none => create_structured_response content) = create_structured_response content
      rw [hp]
    | some a =>
      left
      refine ⟨a, ?_⟩
      show (match jparse cand with
        | some analysis => completeWithDefaults analysis
        | none => create_structured_response content) = completeWithDefaults a
      rw [hp]

theorem analyze_normalize_heuristic (jparse : JsonParser) (content : List Char)
    (h : ∀ cand, jsonCandidate content = some cand → jparse cand = none) :
    analyze_normalize jparse content = create_structured_response content := by
  unfold analyze_normalize
  cases hc : jsonCandidate content with
  | none => rfl
  | some cand =>
    show (match jparse cand with
      | some analysis => completeWithDefaults analysis
      | none => create_structured_response content) = create_structured_response content
    rw [h cand hc]

theorem create_structured_truthy (t : List Char) :
    requiredKeys.all (fun k => truthyAt (create_structured_response t) k) = true := by
  simp only [requiredKeys, List.all_cons, List.all_nil, Bool.and_true, Bool.and_eq_true]
  exact ⟨create_structured_summary_truthy t, rfl, rfl,
    create_structured_technical_truthy t, rfl, rfl, rfl, rfl, rfl⟩

/-- C1: whatever the model output text and whatever `json.loads` makes of
the extracted object literal, the normalization step returns a record in
which each of the nine required fields is present and truthy (no empty
string, no empty list); the embedding is a total function, matching the
source's behaviour of never raising in this step. -/
theorem normalize_always_complete (jparse : JsonParser) (content : List Char) :
    requiredKeys.all (fun k => truthyAt (analyze_normalize jparse content) k) = true := by
  rcases analyze_normalize_path jparse content with ⟨a, h⟩ | h
  · rw [h]
    exact completeWithDefaults_truthy a
  · rw [h]
    exact create_structured_truthy content

/-- C2 counterexample: on the heuristic path (input `"hello"`, no object
literal), the code's job_roles end in "Team Lead", its soft_skills are in
a different order, its suggested_jobs have a third entry, and its
no-period summary is a different sentence than the policy-table defaults
the claim states. -/
theorem heuristic_defaults_counterexample :
    dictGet (analyze_normalize (fun _ => none) "hello".toList) "job_roles"
      = some (JValue.jarr [JValue.jstr "Software Engineer",
          JValue.jstr "Project Manager", JValue.jstr "Team Lead"]) ∧
    JValue.jarr [JValue.jstr "Software Engineer", JValue.jstr "Project Manager",
        JValue.jstr "Team Lead"]
      ≠ JValue.jarr [JValue.jstr "Software Engineer", JValue.jstr "Project Manager",
          JValue.jstr "Data Analyst"] ∧
    dictGet (analyze_normalize (fun _ => none) "hello".toList) "soft_skills"
      = some (JValue.jarr [JValue.jstr "Communication", JValue.jstr "Leadership",
          JValue.jstr "Problem-solving", JValue.jstr "Teamwork"]) ∧
    JValue.jarr [JValue.jstr "Communication", JValue.jstr "Leadership",
        JValue.jstr "Problem-solving", JValue.jstr "Teamwork"]
      ≠ JValue.jarr [JValue.jstr "Communication", JValue.jstr "Teamwork",
          JValue.jstr "Problem-solving", JValue.jstr "Leadership"] ∧
    dictGet (analyze_normalize (fun _ => none) "hello".toList) "suggested_jobs"
      = some (JValue.jarr [JValue.jstr "Software Developer",
          JValue.jstr "Technical Lead", JValue.jstr "Product Manager"]) ∧
    JValue.jarr [JValue.jstr "Software Developer", JValue.jstr "Technical Lead",
        JValue.jstr "Product Manager"]
      ≠ JValue.jarr [JValue.jstr "Software Developer", JValue.jstr "Technical Lead"] ∧
    dictGet (analyze_normalize (fun _ => none) "hello".toList) "summary"
      = some (JValue.jstr "Experienced professional with diverse background.") ∧
    JValue.jstr "Experienced professional with diverse background."
      ≠ JValue.jstr "Professional with diverse skills and experience." :=
  ⟨rfl, by simp, rfl, by simp, rfl, by simp, rfl, by simp⟩

/-- C2 amended: whenever normalization takes the heuristic-fallback path,
job_roles are ["Software Engineer","Project Manager","Team Lead"],
soft_skills are ["Communication","Leadership","Problem-solving","Teamwork"],
suggested_jobs are ["Software Developer","Technical Lead","Product Manager"],
sentiment is "Positive", tone is "Professional", improvement_areas are
["Add more specific achievements","Include quantifiable results"],
experience_level is "Mid", and when the input text contains no period the
summary is "Experienced professional with diverse background.". -/
theorem heuristic_fallback_fixed_fields (jparse : JsonParser) (content : List Char)
    (h : ∀ cand, jsonCandidate content = some cand → jparse cand = none) :
    dictGet (analyze_normalize jparse content) "job_roles"
      = some (JValue.jarr [JValue.jstr "Software Engineer",
          JValue.jstr "Project Manager", JValue.jstr "Team Lead"]) ∧
    dictGet (analyze_normalize jparse content) "soft_skills"
      = some (JValue.jarr [JValue.jstr "Communication", JValue.jstr "Leadership",
          JValue.jstr "Problem-solving", JValue.jstr "Teamwork"]) ∧
    dictGet (analyze_normalize jparse content) "suggested_jobs"
      = some (JValue.jarr [JValue.jstr "Software Developer",
          JValue.jstr "Technical Lead", JValue.jstr "Product Manager"]) ∧
    dictGet (analyze_normalize jparse content) "sentiment"
      = some (JValue.jstr "Positive") ∧
    dictGet (analyze_normalize jparse content) "tone"
      = some (JValue.jstr "Professional") ∧
    dictGet (analyze_normalize jparse content) "improvement_areas"
      = some (JValue.jarr [JValue.jstr "Add more specific achievements",
          JValue.jstr "Include quantifiable results"]) ∧
    dictGet (analyze_normalize jparse content) "experience_level"
      = some (JValue.jstr "Mid") ∧
    (content.contains '.' = false →
      dictGet (analyze_normalize jparse content) "summary"
        = some (JValue.jstr "Experienced professional with diverse background.")) := by
  rw [analyze_normalize_heuristic jparse content h]
  refine ⟨rfl, rfl, rfl, rfl, rfl, rfl, rfl, ?_⟩
  intro hdot
  have hget : dictGet (create_structured_response content) "summary"
      = some (heuristicSummary content) := rfl
  rw [hget]
  unfold heuristicSummary
  rw [hdot]
  rfl

/-- Witness for C2's amended statement at the concrete input `"hi there"`. -/
theorem heuristic_fallback_fixed_fields_check :
    dictGet (analyze_normalize (fun _ => none) "hi there".toList) "job_roles"
      = some (JValue.jarr [JValue.jstr "Software Engineer",
          JValue.jstr "Project Manager", JValue.jstr "Team Lead"]) :=
  (heuristic_fallback_fixed_fields (fun _ => none) "hi there".toList
    (fun cand hc => by
      rw [show jsonCandidate "hi there".toList = none from rfl] at hc)).1

end ResumeMatcher
